import Mathlib

/-!
Shallow embedding of the BECOM-POINTAGE time-tracking application
(`src/app.py`): data model (users, pointages), the clock-in handler
(`pointe`), the admin decision handler (`admin_valide`), username
normalization (`normalize_username`) and the monthly PDF renderer
(`generate_monthly_pdf_for_user`), together with theorems settling the
specification claims about them.

Python strings are modelled as Lean `String` / `List Char` (ASCII-faithful
for the operations used); SQL rows are modelled as a list of records; the
database session mutation of a fetched row is modelled by updating the
first matching list element; wall-clock timestamps are explicit
parameters.
-/

namespace Becom

/-! ## Python string helpers -/

/-- Characters removed by Python `str.strip()` (ASCII whitespace). -/
def pyWhitespace (c : Char) : Bool :=
  c = ' ' || c = '\t' || c = '\n' || c = '\r' || c = Char.ofNat 11 || c = Char.ofNat 12

/-- Model of Python `str.strip()` on a character list. -/
def pyStrip (l : List Char) : List Char :=
  ((l.dropWhile pyWhitespace).reverse.dropWhile pyWhitespace).reverse

/-- Model of Python `str.lower()` (ASCII letters). -/
def pyLower (l : List Char) : List Char := l.map Char.toLower

/-- Model of Python `str.upper()` (ASCII letters). -/
def pyUpper (l : List Char) : List Char := l.map Char.toUpper

/-- Model of Python `str.capitalize()`: first character upper-cased, rest lower-cased. -/
def pyCapitalize (l : List Char) : List Char :=
  match l with
  | [] => []
  | c :: rest => c.toUpper :: rest.map Char.toLower

/-- Model of Python `str.split(sep)` for a one-character separator:
`splitOnChar sep l` cuts `l` at every occurrence of `sep`, keeping empty
segments (so the result is always nonempty). -/
def splitOnChar (sep : Char) : List Char → List (List Char)
  | [] => [[]]
  | c :: rest =>
    if c = sep then [] :: splitOnChar sep rest
    else
      match splitOnChar sep rest with
      | [] => [[c]]
      | s :: ss => (c :: s) :: ss

/-- Model of `sep.join(segments)` for the one-character separator `'.'`. -/
def joinDot : List (List Char) → List Char
  | [] => []
  | [s] => s
  | s :: ss => s ++ '.' :: joinDot ss

/-- The characters kept by `seg.replace(" ", "").replace("-", "")`:
everything except a space and a hyphen. -/
def keepChar (c : Char) : Bool := c ≠ ' ' && c ≠ '-'

/-! ## Username normalization (src/app.py lines 67-69) -/

/-- Embedding of `normalize_username`:
`base = f"{last_name.strip()}.{first_name.strip()}".lower()` then
`".".join([seg.replace(" ", "").replace("-", "") for seg in base.split(".")])`. -/
def normalize_username (first_name last_name : String) : String :=
  let base := pyLower (pyStrip last_name.data ++ '.' :: pyStrip first_name.data)
  ⟨joinDot ((splitOnChar '.' base).map (List.filter keepChar))⟩

/-- The username formula as the claim words it: the lowercased last name,
joined to the lowercased first name with a dot, with spaces and hyphens
removed from each part. -/
def claimUsername (first_name last_name : String) : String :=
  ⟨(pyLower last_name.data).filter keepChar ++ '.' :: (pyLower first_name.data).filter keepChar⟩

/-! ## Dates

The clock-in handler parses `day` with `strptime(day_str, "%Y-%m-%d")` and
takes `.date()`; failures of any kind are caught and mapped to a 400
response. A calendar date is a (year, month, day) triple. -/

structure Date3 where
  year : Nat
  month : Nat
  day : Nat
deriving DecidableEq

def isLeap (y : Nat) : Bool := (y % 4 = 0 && y % 100 ≠ 0) || y % 400 = 0

def daysInMonth (y m : Nat) : Nat :=
  if m = 2 then (if isLeap y then 29 else 28)
  else if m = 4 || m = 6 || m = 9 || m = 11 then 30
  else 31

/-- Digit-list to number. -/
def digitsToNat (l : List Char) : Nat :=
  l.foldl (fun acc c => acc * 10 + (c.toNat - 48)) 0

/-- Model of `datetime.strptime(day_str, "%Y-%m-%d").date()` wrapped in the
handler's `try`: `none` models the caught exception (including the
`TypeError` raised when the form field is absent and `day_str` is `None`). -/
def parseDate (s : Option String) : Option Date3 :=
  match s with
  | none => none
  | some str =>
    match splitOnChar '-' str.data with
    | [ys, ms, ds] =>
      if ys ≠ [] && ys.all Char.isDigit && ms ≠ [] && ms.all Char.isDigit
          && ds ≠ [] && ds.all Char.isDigit then
        let y := digitsToNat ys
        let m := digitsToNat ms
        let d := digitsToNat ds
        if 1 ≤ y && 1 ≤ m && m ≤ 12 && 1 ≤ d && d ≤ daysInMonth y m then
          some ⟨y, m, d⟩
        else none
      else none
    | _ => none

/-- Date comparison used by the month-range queries (`day >= first_day`,
`day <= last_day`, `order_by(day.asc())`). -/
def dateLE (a b : Date3) : Bool :=
  a.year < b.year
  || (a.year = b.year && (a.month < b.month
      || (a.month = b.month && a.day ≤ b.day)))

/-! ## Data model (src/app.py lines 28-57) -/

/-- A row of the `users` table (the fields the handlers read). -/
structure UserRec where
  id : Nat
  first_name : String
  last_name : String
  username : String
  role : String
deriving DecidableEq

/-- A row of the `pointages` table. Timestamps are abstract `Nat` instants. -/
structure Pointage where
  id : Nat
  user_id : Nat
  day : Date3
  shift : String
  status : String
  created_at : Nat
  validated_by : Option Nat
  validated_at : Option Nat
deriving DecidableEq

/-- The `pointages` table contents. -/
abbrev DB := List Pointage

/-- The `(user_id, day)` key of the table's `UniqueConstraint("user_id", "day")`. -/
def entryKey (p : Pointage) : Nat × Date3 := (p.user_id, p.day)

/-- At most one entry per `(user, day)`: the keys of the stored rows are
pairwise distinct. -/
def KeyUnique (db : DB) : Prop := (db.map entryKey).Nodup

instance : DecidablePred KeyUnique := fun db =>
  inferInstanceAs (Decidable (db.map entryKey).Nodup)

/-- `db.query(Pointage).filter_by(user_id=uid, day=d).first()`. -/
def findPointage (db : DB) (uid : Nat) (d : Date3) : Option Pointage :=
  db.find? (fun p => decide (p.user_id = uid ∧ p.day = d))

/-- `db.get(Pointage, pid)`: primary-key lookup. -/
def getById (db : DB) (pid : Int) : Option Pointage :=
  db.find? (fun p => decide ((p.id : Int) = pid))

/-- Mutation of the ORM row object fetched by a query, then `db.commit()`:
the first row satisfying `pred` is replaced by its image under `f`. -/
def updateFirst (pred : Pointage → Bool) (f : Pointage → Pointage) : DB → DB
  | [] => []
  | p :: rest => if pred p then f p :: rest else p :: updateFirst pred f rest

/-! ## HTTP responses -/

/-- The JSON body `{"ok": ..., "error": ...}` returned by the two POST handlers. -/
structure JsonBody where
  ok : Bool
  error : Option String
deriving DecidableEq

/-- Outcome of a handler: a JSON response with an HTTP status code, or an
unhandled Python exception escaping the handler (named by its type). -/
inductive HResult where
  | resp (body : JsonBody) (code : Nat)
  | exn (kind : String)
deriving DecidableEq

def HResult.isExn : HResult → Bool
  | .resp _ _ => false
  | .exn _ => true

/-! ## Clock-in handler (src/app.py lines 148-174) -/

/-- The form fields of `POST /pointe`; `request.form.get` yields `None`
for an absent field. -/
structure PtForm where
  day : Option String
  shift : Option String
deriving DecidableEq

/-- `shift not in ("jour", "nuit", "deplacement")` — with `none` for a
missing field, which is likewise not in the tuple. -/
def validShift : Option String → Bool
  | none => false
  | some s => s = "jour" || s = "nuit" || s = "deplacement"

/-- Embedding of the `pointe` handler. `uid` is `current_user.id`
(`login_required` guarantees an authenticated caller), `now` the value of
`datetime.utcnow()` backing the `created_at` column default, and `freshId`
the primary key the database would assign to an inserted row. -/
def pointe (db : DB) (uid : Nat) (form : PtForm) (now freshId : Nat) :
    HResult × DB :=
  if validShift form.shift = false then
    (.resp ⟨false, some "Choix invalide"⟩ 400, db)
  else
    match parseDate form.day with
    | none => (.resp ⟨false, some "Date invalide"⟩ 400, db)
    | some chosen =>
      match findPointage db uid chosen with
      | some p =>
        if p.status = "valide" then
          (.resp ⟨false, some "Jour déjà validé, modification impossible."⟩ 400, db)
        else
          (.resp ⟨true, none⟩ 200,
            updateFirst (fun q => decide (q.user_id = uid ∧ q.day = chosen))
              (fun q => { q with shift := (form.shift.getD ""), status := "en_attente" }) db)
      | none =>
        (.resp ⟨true, none⟩ 200,
          db ++ [{ id := freshId, user_id := uid, day := chosen,
                   shift := form.shift.getD "", status := "en_attente",
                   created_at := now, validated_by := none, validated_at := none }])

/-! ## Python int() (used on the pid form field, src/app.py line 208) -/

/-- Tail of a Python decimal integer literal after its first digit: digits,
with single underscores allowed between digits. -/
def numTail : List Char → Bool
  | [] => true
  | [c] => c.isDigit
  | c :: d :: rest =>
    if c = '_' then d.isDigit && numTail rest
    else c.isDigit && numTail (d :: rest)

/-- A nonempty run of digits with single underscores between digits. -/
def numBody : List Char → Bool
  | [] => false
  | c :: rest => c.isDigit && numTail rest

/-- Model of Python `int(s)` for a string argument: strips ASCII
whitespace, accepts an optional sign followed by digits (with underscores
between digits); `none` models the `ValueError` raised otherwise. -/
def pyParseInt (s : String) : Option Int :=
  let l := pyStrip s.data
  match l with
  | '+' :: rest =>
    if numBody rest then some (digitsToNat (rest.filter (· ≠ '_')) : Int) else none
  | '-' :: rest =>
    if numBody rest then some (-(digitsToNat (rest.filter (· ≠ '_')) : Int)) else none
  | _ => if numBody l then some (digitsToNat (l.filter (· ≠ '_')) : Int) else none

/-! ## Admin decision handler (src/app.py lines 203-220) -/

/-- The form fields of `POST /admin/valide`. -/
structure AdmForm where
  pid : Option String
  action : Option String
deriving DecidableEq

/-- `action not in ("valide", "refuse")`, with `none` for a missing field. -/
def validAction : Option String → Bool
  | none => false
  | some a => a = "valide" || a = "refuse"

/-- Embedding of the `admin_valide` handler. `caller` is `current_user`
(authenticated, by `login_required`); `now` is the value of
`datetime.utcnow()` at decision time. `pid = int(request.form.get("pid"))`
runs before the action check: a missing field raises `TypeError`
(`int(None)`) and a non-numeric string raises `ValueError`, neither caught. -/
def admin_valide (db : DB) (caller : UserRec) (form : AdmForm) (now : Nat) :
    HResult × DB :=
  if caller.role ≠ "admin" then
    (.resp ⟨false, some "Non autorisé"⟩ 403, db)
  else
    match form.pid with
    | none => (.exn "TypeError", db)
    | some s =>
      match pyParseInt s with
      | none => (.exn "ValueError", db)
      | some pid =>
        if validAction form.action = false then
          (.resp ⟨false, some "Action invalide"⟩ 400, db)
        else
          match getById db pid with
          | none => (.resp ⟨false, some "Pointage introuvable"⟩ 404, db)
          | some _ =>
            (.resp ⟨true, none⟩ 200,
              updateFirst (fun p => decide ((p.id : Int) = pid))
                (fun p => { p with status := form.action.getD "",
                                   validated_by := some caller.id,
                                   validated_at := some now }) db)

/-! ## Operation sequences (for the per-(user, day) uniqueness invariant) -/

/-- One state-mutating operation: a clock-in submission or an admin decision. -/
inductive Op where
  | clockIn (uid : Nat) (form : PtForm) (now freshId : Nat)
  | decision (caller : UserRec) (form : AdmForm) (now : Nat)

def applyOp (db : DB) : Op → DB
  | .clockIn uid form now freshId => (pointe db uid form now freshId).2
  | .decision caller form now => (admin_valide db caller form now).2

def runOps (db : DB) (ops : List Op) : DB := ops.foldl applyOp db

/-! ## Monthly PDF generation (src/app.py lines 223-278) -/

/-- Zero-padded two-digit field (`%02d`, `%d`, `%m`). -/
def pad2 (n : Nat) : String := if n < 10 then "0" ++ toString n else toString n

/-- `p.day.strftime("%d/%m/%Y")`. -/
def fmtDay (d : Date3) : String :=
  pad2 d.day ++ "/" ++ pad2 d.month ++ "/" ++ toString d.year

/-- `p.shift.capitalize() if p.shift != "deplacement" else "Déplacement"`. -/
def shiftLabel (s : String) : String :=
  if s ≠ "deplacement" then ⟨pyCapitalize s.data⟩ else "Déplacement"

/-- The dict lookup `{"en_attente": ..., "valide": ..., "refuse": ...}[p.status]`;
the source raises `KeyError` on any other status, which no handler stores. -/
def statusLabel (s : String) : String :=
  if s = "en_attente" then "En attente"
  else if s = "valide" then "Validé"
  else if s = "refuse" then "Refusé"
  else "KeyError"

/-- Insertion into a day-sorted list (model of `order_by(Pointage.day.asc())`). -/
def insertByDay (p : Pointage) : List Pointage → List Pointage
  | [] => [p]
  | q :: rest => if dateLE p.day q.day then p :: q :: rest else q :: insertByDay p rest

def sortByDay : List Pointage → List Pointage
  | [] => []
  | p :: rest => insertByDay p (sortByDay rest)

/-- The month query of `generate_monthly_pdf_for_user`: the caller's rows
with `first_day <= day <= last_day`, ordered by day ascending. -/
def monthEntries (db : DB) (uid : Nat) (year month : Nat) : List Pointage :=
  sortByDay (db.filter (fun p =>
    decide (p.user_id = uid)
    && dateLE ⟨year, month, 1⟩ p.day
    && dateLE p.day ⟨year, month, daysInMonth year month⟩))

/-- The table rows drawn for the entries, three strings per entry. -/
def entryRows : List Pointage → List String
  | [] => []
  | p :: rest => fmtDay p.day :: shiftLabel p.shift :: statusLabel p.status :: entryRows rest

/-- The strings drawn on the canvas, in draw order. `genTime` is
`datetime.now().strftime("%d/%m/%Y %H:%M")`, the wall-clock generation
time rendered into the document at line 250. -/
def pdfLines (user : UserRec) (year month : Nat) (genTime : String)
    (pts : List Pointage) : List String :=
  ("Récapitulatif de pointage - " ++ pad2 month ++ "/" ++ toString year)
  :: ("Employé : " ++ (⟨pyCapitalize user.first_name.data⟩ : String) ++ " "
      ++ (⟨pyUpper user.last_name.data⟩ : String)
      ++ " (identifiant: " ++ user.username ++ ")")
  :: ("Généré le : " ++ genTime)
  :: "Date" :: "Choix" :: "Statut"
  :: (if pts.isEmpty then ["Aucun pointage pour ce mois."] else entryRows pts)

/-- Embedding of `generate_monthly_pdf_for_user`, as the list of strings
rendered into the document. -/
def generate_monthly_pdf_for_user (db : DB) (user : UserRec) (year month : Nat)
    (genTime : String) : List String :=
  pdfLines user year month genTime (monthEntries db user.id year month)

/-! ## Helper lemmas about the list-based database model -/

theorem find?_append_none {α : Type} (pred : α → Bool) (l₁ l₂ : List α)
    (h : l₁.find? pred = none) : (l₁ ++ l₂).find? pred = l₂.find? pred := by
  induction l₁ with
  | nil => simp
  | cons a t ih =>
    by_cases hpa : pred a
    · rw [List.find?_cons_of_pos _ hpa] at h
      simp at h
    · rw [List.find?_cons_of_neg _ hpa] at h
      rw [List.cons_append, List.find?_cons_of_neg _ hpa]
      exact ih h

theorem updateFirst_find? (pred : Pointage → Bool) (f : Pointage → Pointage)
    (db : DB) (p : Pointage) (hfp : pred (f p) = true)
    (h : db.find? pred = some p) :
    (updateFirst pred f db).find? pred = some (f p) := by
  induction db with
  | nil => simp [List.find?] at h
  | cons a t ih =>
    by_cases hpa : pred a
    · rw [List.find?_cons_of_pos _ hpa] at h
      injection h with h'
      subst h'
      simp only [updateFirst, if_pos hpa]
      rw [List.find?_cons_of_pos _ hfp]
    · rw [List.find?_cons_of_neg _ hpa] at h
      simp only [updateFirst, if_neg hpa]
      rw [List.find?_cons_of_neg _ hpa]
      exact ih h

theorem updateFirst_map {α : Type} (g : Pointage → α) (pred : Pointage → Bool)
    (f : Pointage → Pointage) (hg : ∀ q, g (f q) = g q) (db : DB) :
    (updateFirst pred f db).map g = db.map g := by
  induction db with
  | nil => rfl
  | cons a t ih =>
    by_cases hpa : pred a
    · simp [updateFirst, if_pos hpa, hg]
    · simp [updateFirst, if_neg hpa, ih]

theorem updateFirst_length (pred : Pointage → Bool) (f : Pointage → Pointage)
    (db : DB) : (updateFirst pred f db).length = db.length := by
  induction db with
  | nil => rfl
  | cons a t ih =>
    by_cases hpa : pred a
    · simp [updateFirst, if_pos hpa]
    · simp [updateFirst, if_neg hpa, ih]

/-! ## Concrete fixtures used by the witnesses and counterexamples -/

/-- An approved entry of user 1 for 2024-03-05. -/
def pt0 : Pointage :=
  { id := 1, user_id := 1, day := ⟨2024, 3, 5⟩, shift := "jour",
    status := "valide", created_at := 0, validated_by := some 9,
    validated_at := some 3 }

/-- A pending entry of user 1 for 2024-03-06. -/
def pt1 : Pointage :=
  { id := 2, user_id := 1, day := ⟨2024, 3, 6⟩, shift := "nuit",
    status := "en_attente", created_at := 0, validated_by := none,
    validated_at := none }

def db0 : DB := [pt0]
def db1 : DB := [pt0, pt1]

def adminUser : UserRec :=
  { id := 9, first_name := "admin", last_name := "admin",
    username := "admin.admin", role := "admin" }

def empUser : UserRec :=
  { id := 1, first_name := "John", last_name := "Doe",
    username := "doe.john", role := "employee" }

/-! ## Claim theorems -/

/-- Claim C1: a clock-in submission (valid shift, parseable date) whose
target date already has an entry for the caller with status `"valide"`
fails with the conflict error as HTTP 400 with `ok = false`, and the
stored table is returned unchanged, so the existing entry keeps its
shift, status, validator and timestamps. -/
theorem C1_clockin_conflict (db : DB) (uid : Nat) (ds sh : String)
    (now fid : Nat) (d : Date3) (p : Pointage)
    (hsh : validShift (some sh) = true)
    (hd : parseDate (some ds) = some d)
    (hp : findPointage db uid d = some p)
    (hv : p.status = "valide") :
    pointe db uid ⟨some ds, some sh⟩ now fid
      = (.resp ⟨false, some "Jour déjà validé, modification impossible."⟩ 400, db) := by
  simp [pointe, hsh, hd, hp, hv]

/-- Witness for C1 at a concrete state: user 1 resubmits 2024-03-05,
already approved in `db0`. -/
theorem C1_clockin_conflict_witness :
    pointe db0 1 ⟨some "2024-03-05", some "nuit"⟩ 5 2
      = (.resp ⟨false, some "Jour déjà validé, modification impossible."⟩ 400, db0) :=
  C1_clockin_conflict db0 1 "2024-03-05" "nuit" 5 2 ⟨2024, 3, 5⟩ pt0
    (by decide) (by decide) (by decide) (by decide)

/-- Claim C3: a clock-in submission with a valid shift and a parseable
date whose target day has no entry for the caller, or an entry whose
status is not `"valide"`, succeeds with `ok = true`, and afterwards the
stored entry for that (user, day) has exactly the submitted shift and
status `"en_attente"`. -/
theorem C3_clockin_success (db : DB) (uid : Nat) (ds sh : String)
    (now fid : Nat) (d : Date3)
    (hsh : validShift (some sh) = true)
    (hd : parseDate (some ds) = some d)
    (hnot : ∀ p, findPointage db uid d = some p → p.status ≠ "valide") :
    (pointe db uid ⟨some ds, some sh⟩ now fid).1 = .resp ⟨true, none⟩ 200 ∧
    (findPointage (pointe db uid ⟨some ds, some sh⟩ now fid).2 uid d).map
        (fun q => (q.shift, q.status)) = some (sh, "en_attente") := by
  cases hfind : findPointage db uid d with
  | some p =>
    have hs : ¬ p.status = "valide" := hnot p hfind
    have hres : pointe db uid ⟨some ds, some sh⟩ now fid
        = (.resp ⟨true, none⟩ 200,
           updateFirst (fun q => decide (q.user_id = uid ∧ q.day = d))
             (fun q => { q with shift := sh, status := "en_attente" }) db) := by
      simp [pointe, hsh, hd, hfind, hs]
    have hfind' : db.find? (fun q => decide (q.user_id = uid ∧ q.day = d)) = some p := hfind
    have hfind2 : findPointage
        (updateFirst (fun q => decide (q.user_id = uid ∧ q.day = d))
          (fun q => { q with shift := sh, status := "en_attente" }) db) uid d
        = some { p with shift := sh, status := "en_attente" } :=
      updateFirst_find? (fun q => decide (q.user_id = uid ∧ q.day = d))
        (fun q => { q with shift := sh, status := "en_attente" }) db p
        (by simpa using List.find?_some hfind') hfind'
    refine ⟨by rw [hres], ?_⟩
    simp only [hres, hfind2, Option.map_some]
    rfl
  | none =>
    have hres : pointe db uid ⟨some ds, some sh⟩ now fid
        = (.resp ⟨true, none⟩ 200,
           db ++ [{ id := fid, user_id := uid, day := d, shift := sh,
                    status := "en_attente", created_at := now,
                    validated_by := none, validated_at := none }]) := by
      simp [pointe, hsh, hd, hfind]
    have hfind2 : findPointage
        (db ++ [{ id := fid, user_id := uid, day := d, shift := sh,
                  status := "en_attente", created_at := now,
                  validated_by := none, validated_at := none }]) uid d
        = some { id := fid, user_id := uid, day := d, shift := sh,
                 status := "en_attente", created_at := now,
                 validated_by := none, validated_at := none } := by
      show (db ++ _).find? _ = _
      rw [find?_append_none _ _ _ hfind]
      simp [List.find?]
    refine ⟨by rw [hres], ?_⟩
    simp only [hres, hfind2, Option.map_some]
    rfl

/-- Witness for C3 at a concrete state: user 1 submits 2024-03-06 when no
entry exists for that day in `db0`. -/
theorem C3_clockin_success_witness :
    (pointe db0 1 ⟨some "2024-03-06", some "deplacement"⟩ 5 2).1
        = .resp ⟨true, none⟩ 200 ∧
    (findPointage (pointe db0 1 ⟨some "2024-03-06", some "deplacement"⟩ 5 2).2
        1 ⟨2024, 3, 6⟩).map (fun q => (q.shift, q.status))
      = some ("deplacement", "en_attente") :=
  C3_clockin_success db0 1 "2024-03-06" "deplacement" 5 2 ⟨2024, 3, 6⟩
    (by decide) (by decide) (by decide)

/-- Appending a row whose (user, day) key is absent from the table keeps
the keys pairwise distinct. -/
theorem keyUnique_append (db : DB) (q : Pointage) (h : KeyUnique db)
    (hnone : db.find? (fun p => decide (p.user_id = q.user_id ∧ p.day = q.day)) = none) :
    KeyUnique (db ++ [q]) := by
  unfold KeyUnique at h ⊢
  rw [List.map_append]
  refine h.append (by simp) ?_
  intro a ha hb
  simp only [List.map_cons, List.map_nil, List.mem_singleton] at hb
  subst hb
  rw [List.mem_map] at ha
  obtain ⟨p, hp, hkey⟩ := ha
  have hnp := List.find?_eq_none.mp hnone p hp
  apply hnp
  have h1 : p.user_id = q.user_id := congrArg Prod.fst hkey
  have h2 : p.day = q.day := congrArg Prod.snd hkey
  simp [h1, h2]

/-- A single clock-in submission preserves the per-(user, day) uniqueness
invariant. -/
theorem keyUnique_pointe (db : DB) (uid : Nat) (form : PtForm)
    (now fid : Nat) (h : KeyUnique db) :
    KeyUnique (pointe db uid form now fid).2 := by
  cases hsh : validShift form.shift with
  | false =>
    have heq : (pointe db uid form now fid).2 = db := by simp [pointe, hsh]
    rw [heq]; exact h
  | true =>
    cases hd : parseDate form.day with
    | none =>
      have heq : (pointe db uid form now fid).2 = db := by simp [pointe, hsh, hd]
      rw [heq]; exact h
    | some d =>
      cases hfind : findPointage db uid d with
      | some p =>
        by_cases hv : p.status = "valide"
        · have heq : (pointe db uid form now fid).2 = db := by
            simp [pointe, hsh, hd, hfind, hv]
          rw [heq]; exact h
        · have heq : (pointe db uid form now fid).2
              = updateFirst (fun q => decide (q.user_id = uid ∧ q.day = d))
                  (fun q => { q with shift := form.shift.getD "",
                                     status := "en_attente" }) db := by
            simp [pointe, hsh, hd, hfind, hv]
          rw [heq]
          unfold KeyUnique
          rw [updateFirst_map entryKey _
            (fun q => { q with shift := form.shift.getD "",
                               status := "en_attente" }) (fun q => rfl) db]
          exact h
      | none =>
        have heq : (pointe db uid form now fid).2
            = db ++ [{ id := fid, user_id := uid, day := d,
                       shift := form.shift.getD "", status := "en_attente",
                       created_at := now, validated_by := none,
                       validated_at := none }] := by
          simp [pointe, hsh, hd, hfind]
        rw [heq]
        exact keyUnique_append db _ h hfind

/-- A single admin decision preserves the per-(user, day) uniqueness
invariant. -/
theorem keyUnique_admin_valide (db : DB) (caller : UserRec) (form : AdmForm)
    (now : Nat) (h : KeyUnique db) :
    KeyUnique (admin_valide db caller form now).2 := by
  by_cases hrole : caller.role = "admin"
  · cases hpid : form.pid with
    | none =>
      have heq : (admin_valide db caller form now).2 = db := by
        simp [admin_valide, hrole, hpid]
      rw [heq]; exact h
    | some s =>
      cases hpi : pyParseInt s with
      | none =>
        have heq : (admin_valide db caller form now).2 = db := by
          simp [admin_valide, hrole, hpid, hpi]
        rw [heq]; exact h
      | some pid =>
        cases hact : validAction form.action with
        | false =>
          have heq : (admin_valide db caller form now).2 = db := by
            simp [admin_valide, hrole, hpid, hpi, hact]
          rw [heq]; exact h
        | true =>
          cases hget : getById db pid with
          | none =>
            have heq : (admin_valide db caller form now).2 = db := by
              simp [admin_valide, hrole, hpid, hpi, hact, hget]
            rw [heq]; exact h
          | some p =>
            have heq : (admin_valide db caller form now).2
                = updateFirst (fun q => decide ((q.id : Int) = pid))
                    (fun q => { q with status := form.action.getD "",
                                       validated_by := some caller.id,
                                       validated_at := some now }) db := by
              simp [admin_valide, hrole, hpid, hpi, hact, hget]
            rw [heq]
            unfold KeyUnique
            rw [updateFirst_map entryKey _
              (fun q => { q with status := form.action.getD "",
                                 validated_by := some caller.id,
                                 validated_at := some now }) (fun q => rfl) db]
            exact h
  · have heq : (admin_valide db caller form now).2 = db := by
      simp [admin_valide, hrole]
    rw [heq]; exact h

/-- Claim C2: starting from a table whose (user, day) keys are pairwise
distinct, any sequence of clock-in and admin-decision operations keeps at
most one entry per (user, day); moreover the clock-in handler upserts:
when an entry for the target (user, day) already exists, the number of
stored rows does not change (no second row is inserted). -/
theorem C2_unique_per_user_day (db : DB) (h : KeyUnique db) (ops : List Op) :
    KeyUnique (runOps db ops) ∧
    (∀ uid form now fid d p, parseDate form.day = some d →
      findPointage db uid d = some p →
      (pointe db uid form now fid).2.length = db.length) := by
  constructor
  · induction ops generalizing db with
    | nil => exact h
    | cons op rest ih =>
      cases op with
      | clockIn uid form now fid =>
        exact ih _ (keyUnique_pointe db uid form now fid h)
      | decision caller form now =>
        exact ih _ (keyUnique_admin_valide db caller form now h)
  · intro uid form now fid d p hd hp
    cases hsh : validShift form.shift with
    | false => simp [pointe, hsh]
    | true =>
      by_cases hv : p.status = "valide"
      · simp [pointe, hsh, hd, hp, hv]
      · simp [pointe, hsh, hd, hp, hv, updateFirst_length]

/-- Witness for C2 at a concrete state and operation sequence: a clock-in
creating an entry, an admin approval, and a second clock-in for the same
day. -/
theorem C2_unique_per_user_day_witness :
    KeyUnique (runOps db0
      [.clockIn 1 ⟨some "2024-03-06", some "jour"⟩ 5 2,
       .decision adminUser ⟨some "2", some "valide"⟩ 6,
       .clockIn 1 ⟨some "2024-03-06", some "nuit"⟩ 7 3]) ∧
    (pointe db0 1 ⟨some "2024-03-05", some "nuit"⟩ 5 3).2.length = db0.length :=
  ⟨(C2_unique_per_user_day db0 (by decide)
      [.clockIn 1 ⟨some "2024-03-06", some "jour"⟩ 5 2,
       .decision adminUser ⟨some "2", some "valide"⟩ 6,
       .clockIn 1 ⟨some "2024-03-06", some "nuit"⟩ 7 3]).1,
   (C2_unique_per_user_day db0 (by decide) []).2
     1 ⟨some "2024-03-05", some "nuit"⟩ 5 3 ⟨2024, 3, 5⟩ pt0
     (by decide) (by decide)⟩

/-- Claim C4: an admin-decision request by an admin with a valid action
(`"valide"` or `"refuse"`) and an existing entry id sets the entry's
status to the decision, its validator to the acting admin's id and its
decision timestamp to a non-null value; a missing entry id yields a 404
not-found error with the table unchanged. -/
theorem C4_admin_decision (db : DB) (caller : UserRec) (pidStr act : String)
    (pid : Int) (now : Nat)
    (hadmin : caller.role = "admin")
    (hpid : pyParseInt pidStr = some pid)
    (hact : validAction (some act) = true) :
    (getById db pid = none →
      admin_valide db caller ⟨some pidStr, some act⟩ now
        = (.resp ⟨false, some "Pointage introuvable"⟩ 404, db)) ∧
    (∀ p, getById db pid = some p →
      (admin_valide db caller ⟨some pidStr, some act⟩ now).1
          = .resp ⟨true, none⟩ 200 ∧
      getById (admin_valide db caller ⟨some pidStr, some act⟩ now).2 pid
        = some { p with status := act, validated_by := some caller.id,
                        validated_at := some now }) := by
  constructor
  · intro hget
    simp [admin_valide, hadmin, hpid, hact, hget]
  · intro p hget
    have heq : admin_valide db caller ⟨some pidStr, some act⟩ now
        = (.resp ⟨true, none⟩ 200,
           updateFirst (fun q => decide ((q.id : Int) = pid))
             (fun q => { q with status := act,
                                validated_by := some caller.id,
                                validated_at := some now }) db) := by
      simp [admin_valide, hadmin, hpid, hact, hget]
    have hget' : db.find? (fun q => decide ((q.id : Int) = pid)) = some p := hget
    refine ⟨by rw [heq], ?_⟩
    rw [heq]
    exact updateFirst_find? (fun q => decide ((q.id : Int) = pid))
      (fun q => { q with status := act, validated_by := some caller.id,
                         validated_at := some now })
      db p (by simpa using List.find?_some hget') hget'

/-- Witness for C4 at a concrete state: the admin approves the pending
entry with id 2 of `db1`, and a request naming the absent id 5 gets a
404. -/
theorem C4_admin_decision_witness :
    admin_valide db1 adminUser ⟨some "5", some "valide"⟩ 7
        = (.resp ⟨false, some "Pointage introuvable"⟩ 404, db1) ∧
    ((admin_valide db1 adminUser ⟨some "2", some "valide"⟩ 7).1
        = .resp ⟨true, none⟩ 200 ∧
      getById (admin_valide db1 adminUser ⟨some "2", some "valide"⟩ 7).2 2
        = some { pt1 with status := "valide", validated_by := some adminUser.id,
                          validated_at := some 7 }) :=
  ⟨(C4_admin_decision db1 adminUser "5" "valide" 5 7 rfl (by decide)
      (by decide)).1 (by decide),
   (C4_admin_decision db1 adminUser "2" "valide" 2 7 rfl (by decide)
      (by decide)).2 pt1 (by decide)⟩

/-- Claim C5: an authenticated caller whose role is not `"admin"` gets a
403 forbidden JSON error from the admin decision endpoint, and the whole
table — in particular any entry the request names — is returned unchanged
in every field. -/
theorem C5_nonadmin_forbidden (db : DB) (caller : UserRec) (form : AdmForm)
    (now : Nat) (h : caller.role ≠ "admin") :
    admin_valide db caller form now
      = (.resp ⟨false, some "Non autorisé"⟩ 403, db) := by
  simp [admin_valide, h]

/-- Witness for C5 at a concrete state: the employee user tries to approve
entry 2. -/
theorem C5_nonadmin_forbidden_witness :
    admin_valide db1 empUser ⟨some "2", some "valide"⟩ 7
      = (.resp ⟨false, some "Non autorisé"⟩ 403, db1) :=
  C5_nonadmin_forbidden db1 empUser ⟨some "2", some "valide"⟩ 7 (by decide)

/-- Claim C9 (implicit): the admin decision handler never inspects the
entry's current status — for any existing entry, whatever its status, an
admin decision with a valid action succeeds and overwrites status,
validator id and decision timestamp. -/
theorem C9_admin_ignores_status (db : DB) (caller : UserRec)
    (pidStr act : String) (pid : Int) (now : Nat) (p : Pointage)
    (hadmin : caller.role = "admin")
    (hpid : pyParseInt pidStr = some pid)
    (hact : validAction (some act) = true)
    (hget : getById db pid = some p) :
    (admin_valide db caller ⟨some pidStr, some act⟩ now).1
        = .resp ⟨true, none⟩ 200 ∧
    getById (admin_valide db caller ⟨some pidStr, some act⟩ now).2 pid
      = some { p with status := act, validated_by := some caller.id,
                      validated_at := some now } := by
  have heq : admin_valide db caller ⟨some pidStr, some act⟩ now
      = (.resp ⟨true, none⟩ 200,
         updateFirst (fun q => decide ((q.id : Int) = pid))
           (fun q => { q with status := act,
                              validated_by := some caller.id,
                              validated_at := some now }) db) := by
    simp [admin_valide, hadmin, hpid, hact, hget]
  have hget' : db.find? (fun q => decide ((q.id : Int) = pid)) = some p := hget
  refine ⟨by rw [heq], ?_⟩
  rw [heq]
  exact updateFirst_find? (fun q => decide ((q.id : Int) = pid))
    (fun q => { q with status := act, validated_by := some caller.id,
                       validated_at := some now })
    db p (by simpa using List.find?_some hget') hget'

/-- Witness for C9 at a concrete state: the entry with id 1 in `db0` is
already approved (`"valide"`), and the admin flips it to `"refuse"`,
re-stamping validator and timestamp. -/
theorem C9_admin_ignores_status_witness :
    (admin_valide db0 adminUser ⟨some "1", some "refuse"⟩ 11).1
        = .resp ⟨true, none⟩ 200 ∧
    getById (admin_valide db0 adminUser ⟨some "1", some "refuse"⟩ 11).2 1
      = some { pt0 with status := "refuse", validated_by := some adminUser.id,
                        validated_at := some 11 } :=
  C9_admin_ignores_status db0 adminUser "1" "refuse" 1 11 pt0
    rfl (by decide) (by decide) (by decide)

/-- Claim C10 (implicit): `pid = int(request.form.get("pid"))` runs
unguarded before the action validation, so a request by an admin whose
`pid` field is missing or not an integer string makes the handler raise an
unhandled Python exception instead of returning a JSON validation error
(the table is still untouched). -/
theorem C10_unguarded_pid (db : DB) (caller : UserRec) (form : AdmForm)
    (now : Nat)
    (hadmin : caller.role = "admin")
    (hbad : form.pid = none ∨ ∃ s, form.pid = some s ∧ pyParseInt s = none) :
    (admin_valide db caller form now).1.isExn = true ∧
    (admin_valide db caller form now).2 = db := by
  rcases hbad with hnone | ⟨s, hs, hps⟩
  · simp [admin_valide, HResult.isExn, hadmin, hnone]
  · simp [admin_valide, HResult.isExn, hadmin, hs, hps]

/-- Witness for C10 at a concrete request: the admin submits
`pid = "abc"` with a valid action, and the handler raises. -/
theorem C10_unguarded_pid_witness :
    (admin_valide db1 adminUser ⟨some "abc", some "valide"⟩ 7).1.isExn = true ∧
    (admin_valide db1 adminUser ⟨some "abc", some "valide"⟩ 7).2 = db1 :=
  C10_unguarded_pid db1 adminUser ⟨some "abc", some "valide"⟩ 7 rfl
    (Or.inr ⟨"abc", rfl, by decide⟩)

/-! ## Username normalization lemmas -/

theorem splitOnChar_ne_nil (sep : Char) (l : List Char) :
    splitOnChar sep l ≠ [] := by
  cases l with
  | nil => simp [splitOnChar]
  | cons c rest =>
    by_cases hc : c = sep
    · simp [splitOnChar, hc]
    · simp only [splitOnChar, if_neg hc]
      cases splitOnChar sep rest <;> simp

theorem joinDot_cons (s : List Char) (ms : List (List Char)) (h : ms ≠ []) :
    joinDot (s :: ms) = s ++ '.' :: joinDot ms := by
  cases ms with
  | nil => exact absurd rfl h
  | cons t ts => rfl

theorem splitOnChar_cons_eq (sep : Char) (rest : List Char) :
    splitOnChar sep (sep :: rest) = [] :: splitOnChar sep rest := by
  conv_lhs => rw [splitOnChar]
  rw [if_pos rfl]

theorem splitOnChar_cons_ne (sep c : Char) (rest : List Char) (hc : ¬ c = sep)
    (s : List Char) (ss : List (List Char))
    (hsplit : splitOnChar sep rest = s :: ss) :
    splitOnChar sep (c :: rest) = (c :: s) :: ss := by
  conv_lhs => rw [splitOnChar]
  rw [if_neg hc, hsplit]

/-- Removing spaces and hyphens from every dot-separated segment and
re-joining with dots is the same as removing spaces and hyphens from the
whole string (the dot itself is kept by the filter). -/
theorem joinDot_split_filter (l : List Char) :
    joinDot ((splitOnChar '.' l).map (List.filter keepChar))
      = l.filter keepChar := by
  have hdot : keepChar '.' = true := by decide
  induction l with
  | nil => rfl
  | cons c rest ih =>
    cases hsplit : splitOnChar '.' rest with
    | nil => exact absurd hsplit (splitOnChar_ne_nil '.' rest)
    | cons s ss =>
      rw [hsplit, List.map_cons] at ih
      by_cases hc : c = '.'
      · subst hc
        rw [splitOnChar_cons_eq, hsplit, List.map_cons, List.map_cons]
        rw [joinDot_cons _ _ (by simp)]
        rw [ih]
        simp [List.filter_cons, hdot]
      · rw [splitOnChar_cons_ne '.' c rest hc s ss hsplit, List.map_cons]
        cases ss with
        | nil =>
          simp only [List.map_nil, joinDot] at ih ⊢
          rw [List.filter_cons, List.filter_cons]
          cases hkc : keepChar c <;> simp [hkc, ih]
        | cons t ts =>
          rw [List.map_cons] at ih
          rw [joinDot_cons _ _ (by simp)] at ih
          rw [List.map_cons, joinDot_cons _ _ (by simp)]
          rw [List.filter_cons, List.filter_cons]
          cases hkc : keepChar c <;> simp [hkc, ← ih]

/-- Claim C7: for names with no leading or trailing whitespace (every
creation path — the CLI command and the admin seed — strips its inputs
before storing them), the stored username is exactly the lowercased last
name joined to the lowercased first name with a dot, with spaces and
hyphens removed from each part; being a function of the name pair, the
derivation is deterministic. -/
theorem C7_username_formula (first_name last_name : String)
    (hf : pyStrip first_name.data = first_name.data)
    (hl : pyStrip last_name.data = last_name.data) :
    normalize_username first_name last_name
      = claimUsername first_name last_name := by
  have hdotl : Char.toLower '.' = '.' := by decide
  have hdotk : keepChar '.' = true := by decide
  have hbase : pyLower (last_name.data ++ '.' :: first_name.data)
      = pyLower last_name.data ++ '.' :: pyLower first_name.data := by
    simp [pyLower, hdotl]
  simp only [normalize_username, claimUsername]
  rw [hf, hl, hbase, joinDot_split_filter]
  congr 1
  rw [List.filter_append, List.filter_cons, hdotk]
  simp

/-- Witness for C7 at concrete names containing a hyphen and a space:
"Jean-Marc" / "De La Rue" normalizes to "delarue.jeanmarc". -/
theorem C7_username_formula_witness :
    normalize_username "Jean-Marc" "De La Rue"
      = claimUsername "Jean-Marc" "De La Rue" :=
  C7_username_formula "Jean-Marc" "De La Rue" (by decide) (by decide)

/-! ## PDF generation claims -/

/-- Counterexample to claim C6 as stated: with identical stored entries
(none at all) and the same employee and month, two runs at different
wall-clock instants render different documents, because line 250 of
src/app.py draws `datetime.now()` into the page. -/
theorem C6_counterexample :
    generate_monthly_pdf_for_user [] empUser 2024 3 "05/10/2026 10:00"
      ≠ generate_monthly_pdf_for_user [] empUser 2024 3 "05/10/2026 10:01" := by
  decide

/-- Claim C6 as amended: the rendered content is a function of the stored
entries, the employee's identity and the generation instant; two runs over
the same stored data agree on everything except the generation-timestamp
line (the third drawn string), which is what erasing index 2 removes. -/
theorem C6_deterministic_modulo_timestamp (db : DB) (user : UserRec)
    (year month : Nat) (t1 t2 : String) :
    (generate_monthly_pdf_for_user db user year month t1).eraseIdx 2
      = (generate_monthly_pdf_for_user db user year month t2).eraseIdx 2 := rfl

/-- Claim C8: for an employee with zero stored entries in the requested
month, PDF generation still produces a document (the renderer has no
failing path on the empty query result) and that document contains the
line stating there are no entries for the month. -/
theorem C8_empty_month_notice (db : DB) (user : UserRec) (year month : Nat)
    (genTime : String) (h : monthEntries db user.id year month = []) :
    "Aucun pointage pour ce mois."
      ∈ generate_monthly_pdf_for_user db user year month genTime := by
  simp [generate_monthly_pdf_for_user, pdfLines, h]

/-- Witness for C8 at a concrete state: user 1 has an entry in March 2024
(`db0`) but none in April 2024. -/
theorem C8_empty_month_notice_witness :
    "Aucun pointage pour ce mois."
      ∈ generate_monthly_pdf_for_user db0 empUser 2024 4 "05/10/2026 10:00" :=
  C8_empty_month_notice db0 empUser 2024 4 "05/10/2026 10:00" (by decide)

end Becom
